import Mathlib

/-!
Verification model of the wostzone hub client library (Go).

The embedding covers the resilient MQTT pub/sub connection layer:

* `pkg/hubclient/MqttClient.go`: the subscription registry
  (`subscriptions : map[string]*TopicSubscription`), `Subscribe`,
  `Unsubscribe`, `Publish`, `Close`, `resubscribe`, `NewMqttClient`
  and the retry loop of `Connect`;
* `pkg/hubclient/MqttHubClient.go`: the typed publish operations and the
  handler adapters of the typed subscribe operations;
* `wostapi/WoSTMqtt.go`: the topic-template constants.

Strings are modelled as lists of characters (`Str`), byte payloads as
`Str` as well, and handler callbacks by numeric identifiers: the claims
under study only observe which handler is invoked, never what it does.
Go maps are modelled as association lists whose entry order stands in for
Go's (unspecified) map iteration order; the theorems below depend on the
order only through states where it is unambiguous.  A Go `nil` pointer
stored in the map is modelled as an entry whose value is `none`.
-/

namespace Wost

/-- Strings, modelled as lists of characters. -/
abbrev Str := List Char

/-- Conversion from a Lean string literal to the model's string type. -/
def str (s : String) : Str := s.data

/-- Model of Go `strings.Split(s, "/")`: splits at every slash and keeps
empty segments, `splitSlash [] = [[]]` just as `strings.Split("", "/")`
is `[""]`. -/
def splitSlash : Str → List Str
  | [] => [[]]
  | c :: rest =>
    if c = '/' then [] :: splitSlash rest
    else
      match splitSlash rest with
      | s :: ss => (c :: s) :: ss
      | [] => [[c]]

/-- MQTT topic-filter matching on slash-separated levels, as implemented by
the paho router: `+` matches exactly one level, `#` matches the whole
remainder of the topic. -/
def matchLevels : List Str → List Str → Bool
  | [], ts => ts.isEmpty
  | f :: fs, ts =>
    if f = str "#" then true
    else
      match ts with
      | [] => false
      | t :: ts2 => (f = str "+" || f = t) && matchLevels fs ts2

/-- Whether the subscription filter `f` matches the concrete topic `t`. -/
def mqttMatch (f t : Str) : Bool :=
  matchLevels (splitSlash f) (splitSlash t)

/-- The opening-brace character of the `{id}` placeholder. -/
def lbrace : Char := Char.ofNat 123

/-- The closing-brace character of the `{id}` placeholder. -/
def rbrace : Char := Char.ofNat 125

/-- Model of Go `strings.ReplaceAll(template, "{id}", id)` specialised to the
placeholder `{id}` used by the topic templates: a left-to-right,
non-overlapping replacement that does not rescan the replacement text. -/
def substId (id : Str) : Str → Str
  | c :: c2 :: c3 :: c4 :: rest2 =>
    if c = lbrace ∧ c2 = 'i' ∧ c3 = 'd' ∧ c4 = rbrace then
      id ++ substId id rest2
    else
      c :: substId id (c2 :: c3 :: c4 :: rest2)
  | c :: rest => c :: substId id rest
  | [] => []

/-- Constant `TopicRoot` of `wostapi/WoSTMqtt.go`. -/
def topicRoot : Str := str "things"

/-- Constant `TopicThingTD = TopicRoot + "/{id}/td"`. -/
def topicThingTD : Str := topicRoot ++ str "/{id}/td"

/-- Constant `TopicThingPropertyValues = TopicRoot + "/{id}/values"`. -/
def topicThingPropertyValues : Str := topicRoot ++ str "/{id}/values"

/-- Constant `TopicThingEvent = TopicRoot + "/{id}/event"`. -/
def topicThingEvent : Str := topicRoot ++ str "/{id}/event"

/-- Constant `TopicSetConfig = TopicRoot + "/{id}/config"`. -/
def topicSetConfig : Str := topicRoot ++ str "/{id}/config"

/-- Constant `TopicAction = TopicRoot + "/{id}/action"`. -/
def topicAction : Str := topicRoot ++ str "/{id}/action"

/-- State of the underlying paho MQTT client object, as far as the claims
observe it: whether the connection is up, the broker-side routing table
(one route per subscribed filter; the route target is the
`*TopicSubscription` the registered closure dereferences, `none` being a
nil pointer), and the messages handed to the broker as
(topic, qos, payload) triples. -/
structure PahoState where
  connected : Bool
  routes : List (Str × Option Nat)
  published : List (Str × Nat × Str)
deriving Repr, DecidableEq

/-- State of `hubclient.MqttClient`: the fields of the Go struct that the
claims observe.  `subscriptions` is the logical registry
`map[string]*TopicSubscription`, an entry with value `none` being a key
mapped to a nil pointer. -/
structure ClientState where
  hostPort : Str
  tlsCACertFile : Str
  pubQos : Nat
  subQos : Nat
  timeout : Int
  isRunning : Bool
  pahoClient : Option PahoState
  subscriptions : List (Str × Option Nat)
deriving Repr, DecidableEq

/-- Whether the Go map holds the key `k` (with any value, nil included). -/
def mapKeyPresent (m : List (Str × Option Nat)) (k : Str) : Bool :=
  m.any (fun e => e.1 == k)

/-- Model of the Go map write `m[k] = v`: replaces the value of an existing
key, otherwise adds the entry. -/
def mapInsert (m : List (Str × Option Nat)) (k : Str) (v : Option Nat) :
    List (Str × Option Nat) :=
  if mapKeyPresent m k then
    m.map (fun e => if e.1 == k then (k, v) else e)
  else
    m ++ [(k, v)]

/-- Model of the Go map read `m[k]` at pointer type: yields nil both when
the key is absent and when the key is mapped to nil. -/
def goGet (m : List (Str × Option Nat)) (k : Str) : Option Nat :=
  match m.find? (fun e => e.1 == k) with
  | some e => e.2
  | none => none

/-- Removal of the broker-side route for filter `k`
(`pahoClient.Unsubscribe`). -/
def routeRemove (rs : List (Str × Option Nat)) (k : Str) :
    List (Str × Option Nat) :=
  rs.filter (fun e => !(e.1 == k))

/-- Installation of a broker-side route (`pahoClient.Subscribe`): paho keeps
one route per filter, a second subscribe to the same filter replaces the
callback. -/
def routeInsert (rs : List (Str × Option Nat)) (k : Str) (v : Option Nat) :
    List (Str × Option Nat) :=
  if rs.any (fun e => e.1 == k) then
    rs.map (fun e => if e.1 == k then (k, v) else e)
  else
    rs ++ [(k, v)]

/-- The route registered for filter `k`, if any. -/
def routeGet (rs : List (Str × Option Nat)) (k : Str) : Option (Option Nat) :=
  (rs.find? (fun e => e.1 == k)).map (fun e => e.2)

/-- The broker-side routing table of a client state (empty when no paho
client object exists). -/
def pahoRoutesOf (st : ClientState) : List (Str × Option Nat) :=
  match st.pahoClient with
  | some p => p.routes
  | none => []

/-- `MqttClient.Subscribe(topic, handler)`: if a paho client object exists, a
broker-level route for the topic is installed whose callback invokes the
handler saved on the stack; then the registry entry is written with
`subscriptions[topic] = subscription`, replacing any existing entry. -/
def Subscribe (st : ClientState) (topic : Str) (handler : Nat) : ClientState :=
  let st2 :=
    match st.pahoClient with
    | some p =>
      { st with
        pahoClient := some ({ p with routes := routeInsert p.routes topic (some handler) }) }
    | none => st
  { st2 with subscriptions := mapInsert st2.subscriptions topic (some handler) }

/-- `MqttClient.Unsubscribe(topic)`: reads `subscriptions[topic]`; when nil
(absent or stored nil) the call is a logged no-op; otherwise, only when a
paho client object exists, the broker route is removed and the registry
entry is overwritten with nil (`subscriptions[topic] = nil` — the key is
not deleted). -/
def Unsubscribe (st : ClientState) (topic : Str) : ClientState :=
  match goGet st.subscriptions topic with
  | none => st
  | some _ =>
    match st.pahoClient with
    | none => st
    | some p =>
      { st with
        pahoClient := some ({ p with routes := routeRemove p.routes topic }),
        subscriptions := mapInsert st.subscriptions topic none }

/-- `MqttClient.Close()`: sets `isRunning` to false; when a paho client
object exists it is disconnected and dropped and the subscriptions map is
replaced by a fresh empty map. -/
def Close (st : ClientState) : ClientState :=
  match st.pahoClient with
  | none => { st with isRunning := false }
  | some _ =>
    { st with isRunning := false, pahoClient := none, subscriptions := [] }

/-- Error string returned by `Publish` when no connection is active. -/
def errNotConnected : Str := str "no connection with server"

/-- `MqttClient.Publish(topic, message)`: fails fast with a "no connection
with server" error when no paho client object exists or it is not
connected; otherwise hands (topic, pubQos, message) to the broker exactly
once and returns the broker-reported outcome `be` of that single publish
call without retrying. -/
def Publish (st : ClientState) (topic : Str) (message : Str)
    (be : Option Str) : ClientState × Option Str :=
  match st.pahoClient with
  | none => (st, some errNotConnected)
  | some p =>
    if p.connected then
      ({ st with
         pahoClient := some ({ p with published := p.published ++ [(topic, st.pubQos, message)] }) },
        be)
    else
      (st, some errNotConnected)

/-- `MqttClient.resubscribe()`: iterates the subscriptions map and, for each
entry, clears then re-installs the broker route for its topic.  The Go
module targets Go 1.14, where the loop variable `subscription` is a single
shared variable captured by every installed closure; when a message is
later dispatched, each closure therefore dereferences the entry iterated
last.  Iteration order of the Go map is unspecified; the model uses the
list order of the registry, and the theorems below only rely on states
where the choice does not matter. -/
def resubscribeModel (st : ClientState) : ClientState :=
  match st.pahoClient with
  | none => st
  | some p =>
    match st.subscriptions.getLast? with
    | none => st
    | some lastEntry =>
      let newRoutes := st.subscriptions.foldl
        (fun rs e => routeInsert (routeRemove rs e.1) e.1 lastEntry.2) p.routes
      { st with pahoClient := some { p with routes := newRoutes } }

/-- State change of `MqttClient.Connect` when the handshake succeeds: the
previous paho client (if any) is discarded for a freshly created connected
one with an empty routing table, `isRunning` is set, and the `OnConnect`
handler runs `resubscribe`.  The retry loop around the handshake is
modelled separately by `MqttConnect`. -/
def connectSuccess (st : ClientState) : ClientState :=
  resubscribeModel
    { st with
      isRunning := true,
      pahoClient := some { connected := true, routes := [], published := [] } }

/-- Delivery of one inbound broker message on `msgTopic`: every route whose
filter matches the topic fires once, invoking the `*TopicSubscription` it
holds (`some h` invokes handler `h`; `none` dereferences a nil pointer —
a Go panic rather than a handler invocation).  Messages are only delivered
while a connection is up. -/
def dispatch (st : ClientState) (msgTopic : Str) : List (Option Nat) :=
  match st.pahoClient with
  | none => []
  | some p =>
    if p.connected then
      (p.routes.filter (fun r => mqttMatch r.1 msgTopic)).map (fun r => r.2)
    else []

/-- `NewMqttClient(hostPort, caCertFile, timeoutSec)`: a timeout of zero or
less is replaced by the default of 3 seconds; pubQos and subQos are 1 and
no paho client exists yet. -/
def NewMqttClient (hostPort caCertFile : Str) (timeoutSec : Int) : ClientState :=
  let t : Int := if timeoutSec ≤ 0 then 3 else timeoutSec
  { hostPort := hostPort
    tlsCACertFile := caCertFile
    pubQos := 1
    subQos := 1
    timeout := t
    isRunning := false
    pahoClient := none
    subscriptions := [] }

/-- One update of `retryDelaySec` at the end of a failed attempt:
`if retryDelaySec < 120 { retryDelaySec++ }`. -/
def stepDelay (d : Nat) : Nat :=
  if d < 120 then d + 1 else d

/-- The retry loop of `MqttClient.Connect`, parameterised by the sequence of
handshake outcomes (`none` = success, `some e` = failure with error `e`).
State: `d` is `retryDelaySec`, `dur` is `retryDuration` (each failed
attempt adds the one-second settle sleep plus the retry delay), `le` the
last error seen.  The result is `some none` when the loop breaks on a
successful handshake, `some e` when the loop condition
`timeout == 0 || retryDuration < timeout` stops it with last error `e`,
and `none` when the outcome list is exhausted while the loop would still
continue. -/
def connectFrom (t : Int) (d dur : Nat) (le : Option Str) :
    List (Option Str) → Option (Option Str)
  | [] => if t = 0 ∨ (dur : Int) < t then none else some le
  | o :: rest =>
    if t = 0 ∨ (dur : Int) < t then
      match o with
      | none => some none
      | some e => connectFrom t (stepDelay d) (dur + 1 + d) (some e) rest
    else some le

/-- The retry loop of `Connect` started from its initial state
`retryDelaySec = 1`, `retryDuration = 0`, `err = nil`. -/
def MqttConnect (t : Int) (outs : List (Option Str)) : Option (Option Str) :=
  connectFrom t 1 0 none outs

/-- `retryDelaySec` before the (k+1)-st attempt. -/
def connectDelay : Nat → Nat
  | 0 => 1
  | k + 1 => stepDelay (connectDelay k)

/-- `retryDuration` after k failed attempts. -/
def connectDur : Nat → Nat
  | 0 => 0
  | k + 1 => connectDur k + 1 + connectDelay k

/-- Dynamic document values as handed to `json.Marshal`
(`map[string]interface{}` and friends): strings, objects, and `bad` for a
value of a type `json.Marshal` rejects (func, chan, NaN, …).  An object
`map[string]interface{}` is represented as a chain of fields,
`vfield key value rest`, ending in the empty object `vemp`. -/
inductive Val where
  | vstr (s : Str) : Val
  | vemp : Val
  | vfield (key : Str) (value rest : Val) : Val
  | bad : Val
deriving Repr, DecidableEq

/-- Whether `json.Marshal` succeeds on the value: it fails exactly when an
unsupported value occurs somewhere inside. -/
def canMarshal : Val → Bool
  | .vstr _ => true
  | .bad => false
  | .vemp => true
  | .vfield _ v rest => canMarshal v && canMarshal rest

/-- Serialised bytes of a marshalable value.  The claims under study never
inspect the wire bytes, so the encoding is a simple unambiguous one rather
than byte-exact JSON. -/
def encodeVal : Val → Str
  | .vstr s => '"' :: (s ++ ['"'])
  | .bad => []
  | .vemp => str "()"
  | .vfield k v rest => k ++ ':' :: (encodeVal v ++ ';' :: encodeVal rest)

/-- Error message of a failed `json.Marshal`. -/
def errUnsupportedType : Str := str "json: unsupported type"

/-- Model of `json.Marshal`: returns (bytes, nil) on success and
(nil, error) on failure — a nil byte slice is the empty payload. -/
def goMarshal (v : Val) : Str × Option Str :=
  if canMarshal v then (encodeVal v, none) else ([], some errUnsupportedType)

/-- `MqttHubClient.PublishTD(thingID, td)`: builds the topic from
`TopicThingTD`, marshals the document with `message, _ := json.Marshal(td)`
— the marshal error is discarded — and publishes whatever bytes resulted. -/
def PublishTD (st : ClientState) (thingID : Str) (td : Val)
    (be : Option Str) : ClientState × Option Str :=
  let topic := substId thingID topicThingTD
  let message := (goMarshal td).1
  Publish st topic message be

/-- `MqttHubClient.PublishPropertyValues(thingID, values)`: like `PublishTD`,
the marshal error is discarded (`message, _ := json.Marshal(values)`). -/
def PublishPropertyValues (st : ClientState) (thingID : Str) (values : Val)
    (be : Option Str) : ClientState × Option Str :=
  let topic := substId thingID topicThingPropertyValues
  let message := (goMarshal values).1
  Publish st topic message be

/-- `MqttHubClient.PublishEvent(thingID, event)`: like `PublishTD`, the
marshal error is discarded (`message, _ := json.Marshal(event)`). -/
def PublishEvent (st : ClientState) (thingID : Str) (event : Val)
    (be : Option Str) : ClientState × Option Str :=
  let topic := substId thingID topicThingEvent
  let message := (goMarshal event).1
  Publish st topic message be

/-- `MqttHubClient.PublishAction(thingID, name, params)`: wraps the
parameters as `map[string]interface{}{name: params}`; a marshal error is
returned at once, otherwise the result of `Publish`. -/
def PublishAction (st : ClientState) (thingID name : Str) (params : Val)
    (be : Option Str) : ClientState × Option Str :=
  let topic := substId thingID topicAction
  let actions := Val.vfield name params Val.vemp
  match goMarshal actions with
  | (_, some e) => (st, some e)
  | (message, none) => Publish st topic message be

/-- `MqttHubClient.PublishConfigRequest(thingID, values)`: a marshal error is
returned at once, otherwise the result of `Publish`. -/
def PublishConfigRequest (st : ClientState) (thingID : Str) (values : Val)
    (be : Option Str) : ClientState × Option Str :=
  let topic := substId thingID topicSetConfig
  match goMarshal values with
  | (_, some e) => (st, some e)
  | (message, none) => Publish st topic message be

/-- An inbound wire payload as seen by `json.Unmarshal` into a
`map[string]interface{}`: either a well-formed JSON object document
(decoded as a `Val` field chain) or bytes on which unmarshalling fails. -/
inductive Payload where
  | jsonDoc (doc : Val) : Payload
  | invalid (bytes : Str) : Payload
deriving Repr, DecidableEq

/-- The closure `SubscribeToEvents` registers: unmarshals the message and,
on success, invokes the handler with the subscription-time thingID (the
received topic is not consulted); on failure the message is dropped.
The result is the (thingID, document) pair the handler receives, if any. -/
def eventsAdapter (subscribedThingID : Str) (_address : Str)
    (message : Payload) : Option (Str × Val) :=
  match message with
  | .jsonDoc ev => some (subscribedThingID, ev)
  | .invalid _ => none

/-- The closure `SubscribeToConfig` registers: same shape as the events
adapter, the subscription-time thingID is passed through. -/
def configAdapter (subscribedThingID : Str) (_address : Str)
    (message : Payload) : Option (Str × Val) :=
  match message with
  | .jsonDoc config => some (subscribedThingID, config)
  | .invalid _ => none

/-- The closure `SubscribeToPropertyValues` registers: same shape as the
events adapter, the subscription-time thingID is passed through. -/
def valuesAdapter (subscribedThingID : Str) (_address : Str)
    (message : Payload) : Option (Str × Val) :=
  match message with
  | .jsonDoc values => some (subscribedThingID, values)
  | .invalid _ => none

/-- The per-field handler invocations of the `SubscribeToActions` closure:
`for name, params := range actions` invokes the handler once per entry
with the subscription-time thingID. -/
def actionInvocations (subscribedThingID : Str) : Val → List (Str × Str × Val)
  | .vfield name params rest =>
    (subscribedThingID, name, params) :: actionInvocations subscribedThingID rest
  | _ => []

/-- The closure `SubscribeToActions` registers: on unmarshal success the
handler is invoked once per (name, params) entry with the
subscription-time thingID; on failure nothing is invoked. -/
def actionsAdapter (subscribedThingID : Str) (_address : Str)
    (message : Payload) : List (Str × Str × Val) :=
  match message with
  | .jsonDoc actions => actionInvocations subscribedThingID actions
  | .invalid _ => []

/-- The closure `SubscribeToTD` registers: splits the received topic on "/"
and takes segment 1 as the thing ID (`rxThingID := addressParts[1]`; the
subscription-time thingID is explicitly ignored by the source), then
unmarshals; failures invoke nothing. -/
def tdAdapter (_subscribedThingID : Str) (address : Str)
    (message : Payload) : Option (Str × Val) :=
  match splitSlash address with
  | _ :: rxThingID :: _ =>
    match message with
    | .jsonDoc td => some (rxThingID, td)
    | .invalid _ => none
  | _ => none

/-- The closure the catch-all `MqttHubClient.Subscribe` registers: splits the
received topic on "/" and, when it has more than two segments, invokes the
handler with (segment 1, segment 2, raw payload); shorter topics are
dropped. -/
def rawAdapter (address : Str) (payload : Str) : Option (Str × Str × Str) :=
  match splitSlash address with
  | _ :: tid :: msgType :: _ => some (tid, msgType, payload)
  | _ => none

/-- Topic parsing of the catch-all subscription, as a function of the topic
alone: the (thingID, messageKind) pair the catch-all handler receives. -/
def parseTopic (topic : Str) : Option (Str × Str) :=
  match splitSlash topic with
  | _ :: tid :: msgType :: _ => some (tid, msgType)
  | _ => none

/-- The five message kinds of the typed API. -/
inductive MsgKind where
  | td | values | event | action | config
deriving Repr, DecidableEq

/-- The topic-template constant used for each message kind. -/
def topicTemplateOf : MsgKind → Str
  | .td => topicThingTD
  | .values => topicThingPropertyValues
  | .event => topicThingEvent
  | .action => topicAction
  | .config => topicSetConfig

/-- The message-kind segment appearing in each template. -/
def kindSegment : MsgKind → Str
  | .td => str "td"
  | .values => str "values"
  | .event => str "event"
  | .action => str "action"
  | .config => str "config"

/-- Topic construction of the typed API: the entity ID substituted for the
`{id}` placeholder of the kind's template. -/
def topicForKind (k : MsgKind) (thingID : Str) : Str :=
  substId thingID (topicTemplateOf k)

theorem goGet_mapInsert (m : List (Str × Option Nat)) (k : Str) (v : Option Nat) :
    goGet (mapInsert m k v) k = v := by
  unfold mapInsert
  split
  · next hpres =>
    induction m with
    | nil => simp [mapKeyPresent] at hpres
    | cons e m ih =>
      by_cases he : e.1 == k
      · simp [goGet, List.find?, he]
      · have hpres2 : mapKeyPresent m k = true := by
          simp [mapKeyPresent] at hpres ⊢
          rcases hpres with h | h
          · exact absurd h (by simpa using he)
          · exact h
        have := ih hpres2
        simpa [goGet, List.find?, he] using this
  · next hpres =>
    induction m with
    | nil => simp [goGet, List.find?]
    | cons e m ih =>
      have he : ¬(e.1 == k) := by
        intro hh
        exact hpres (by simp [mapKeyPresent]; exact Or.inl (by simpa using hh))
      have hpres2 : ¬ mapKeyPresent m k = true := by
        intro hh
        apply hpres
        simp [mapKeyPresent] at hh ⊢
        exact Or.inr hh
      have := ih hpres2
      simpa [goGet, List.find?, he] using this

theorem mapKeyPresent_mapInsert (m : List (Str × Option Nat)) (k : Str) (v : Option Nat) :
    mapKeyPresent (mapInsert m k v) k = true := by
  unfold mapInsert
  split
  · next hpres =>
    induction m with
    | nil => simp [mapKeyPresent] at hpres
    | cons e m ih =>
      by_cases he : e.1 = k
      · simp [mapKeyPresent, he]
      · have hpres2 : mapKeyPresent m k = true := by
          simp [mapKeyPresent] at hpres ⊢
          rcases hpres with h | h
          · exact absurd h (by simpa using he)
          · exact h
        have := ih hpres2
        simp [mapKeyPresent, he] at this ⊢
        exact this
  · simp [mapKeyPresent]

theorem routeGet_routeInsert (rs : List (Str × Option Nat)) (k : Str) (v : Option Nat) :
    routeGet (routeInsert rs k v) k = some v := by
  unfold routeInsert
  split
  · next hpres =>
    induction rs with
    | nil => simp at hpres
    | cons e rs ih =>
      by_cases he : e.1 == k
      · simp [routeGet, List.find?, he]
      · have hpres2 : rs.any (fun e => e.1 == k) = true := by
          simp at hpres ⊢
          rcases hpres with h | h
          · exact absurd h (by simpa using he)
          · exact h
        have := ih hpres2
        simpa [routeGet, List.find?, he] using this
  · next hpres =>
    induction rs with
    | nil => simp [routeGet, List.find?]
    | cons e rs ih =>
      have he : ¬(e.1 == k) := by
        intro hh
        exact hpres (by simp; exact Or.inl (by simpa using hh))
      have hpres2 : ¬ rs.any (fun e => e.1 == k) = true := by
        intro hh
        exact hpres (by simp at hh ⊢; exact Or.inr hh)
      have := ih hpres2
      simpa [routeGet, List.find?, he] using this

theorem routeGet_routeRemove (rs : List (Str × Option Nat)) (k : Str) :
    routeGet (routeRemove rs k) k = none := by
  induction rs with
  | nil => simp [routeRemove, routeGet, List.find?]
  | cons e rs ih =>
    by_cases he : e.1 == k
    · simp only [routeRemove, List.filter, he]
      simpa [routeRemove] using ih
    · have he2 : (!(e.1 == k)) = true := by simp [he]
      simpa [routeRemove, routeGet, List.filter, he2, List.find?, he] using ih

theorem goGet_present (m : List (Str × Option Nat)) (k : Str) (h : Nat)
    (hg : goGet m k = some h) : mapKeyPresent m k = true := by
  induction m with
  | nil => simp [goGet, List.find?] at hg
  | cons e m ih =>
    by_cases he : e.1 == k
    · simp [mapKeyPresent, List.any_cons, he]
    · have : goGet m k = some h := by simpa [goGet, List.find?, he] using hg
      have := ih this
      simp [mapKeyPresent, List.any_cons] at this ⊢
      exact Or.inr this

theorem matchLevels_self (ls : List Str) : matchLevels ls ls = true := by
  induction ls with
  | nil => simp [matchLevels]
  | cons f fs ih =>
    by_cases hf : f = str "#"
    · simp [matchLevels, hf]
    · simp [matchLevels, hf, ih]

theorem mqttMatch_self (t : Str) : mqttMatch t t = true :=
  matchLevels_self (splitSlash t)

theorem splitSlash_no_slash (a : Str) (ha : '/' ∉ a) : splitSlash a = [a] := by
  induction a with
  | nil => simp [splitSlash]
  | cons c rest ih =>
    have hc : ¬ c = '/' := by
      intro hh
      exact ha (by simp [hh])
    have hrest : '/' ∉ rest := by
      intro hh
      exact ha (by simp [hh])
    simp [splitSlash, hc, ih hrest]

theorem splitSlash_append_slash (a b : Str) (ha : '/' ∉ a) :
    splitSlash (a ++ '/' :: b) = a :: splitSlash b := by
  induction a with
  | nil => simp [splitSlash]
  | cons c rest ih =>
    have hc : ¬ c = '/' := by
      intro hh
      exact ha (by simp [hh])
    have hrest : '/' ∉ rest := by
      intro hh
      exact ha (by simp [hh])
    have := ih hrest
    simp only [List.cons_append, splitSlash, List.append_eq, if_neg hc, this]

theorem connectFrom_stop (t : Int) (d dur : Nat) (le : Option Str)
    (outs : List (Option Str)) (h : ¬(t = 0 ∨ (dur : Int) < t)) :
    connectFrom t d dur le outs = some le := by
  cases outs <;> simp [connectFrom, h]

theorem connectDelay_min (k : Nat) : connectDelay k = min (k + 1) 120 := by
  induction k with
  | zero => simp [connectDelay]
  | succ k ih =>
    simp only [connectDelay, ih, stepDelay]
    split <;> omega

theorem connectDur_le_succ (k : Nat) : connectDur k ≤ connectDur (k + 1) := by
  simp [connectDur]; omega

theorem connectFrom_replicate (t : Int) (e : Str) (k : Nat)
    (outs : List (Option Str)) (h : t = 0 ∨ (connectDur k : Int) < t) :
    MqttConnect t (List.replicate k (some e) ++ outs) =
      connectFrom t (connectDelay k) (connectDur k) (if k = 0 then none else some e) outs := by
  induction k generalizing outs with
  | zero => simp [MqttConnect, connectDelay, connectDur]
  | succ k ih =>
    have hk : t = 0 ∨ (connectDur k : Int) < t := by
      rcases h with h | h
      · exact Or.inl h
      · right
        have := connectDur_le_succ k
        omega
    rw [List.replicate_succ', List.append_assoc]
    simp only [List.singleton_append]
    rw [ih (some e :: outs) hk]
    simp only [connectFrom, if_pos hk]
    rfl

theorem connectFrom_allfail (e : Str) (outs : List (Option Str)) :
    ∀ (t : Int) (d dur : Nat) (le : Option Str), 0 < t → (dur : Int) < t →
      (∀ x ∈ outs, x = some e) → (t : Int) ≤ dur + outs.length →
      connectFrom t d dur le outs = some (some e) := by
  induction outs with
  | nil =>
    intro t d dur le ht hdur _ hlen
    simp at hlen
    omega
  | cons o rest ih =>
    intro t d dur le ht hdur hall hlen
    have ho : o = some e := hall o (by simp)
    subst ho
    have hcond : t = 0 ∨ (dur : Int) < t := Or.inr hdur
    simp only [connectFrom, if_pos hcond]
    by_cases hc : ((dur + 1 + d : Nat) : Int) < t
    · exact ih t (stepDelay d) (dur + 1 + d) (some e) ht hc
        (fun x hx => hall x (by simp [hx]))
        (by simp at hlen ⊢; omega)
    · rw [connectFrom_stop]
      intro hh
      rcases hh with hh | hh
      · omega
      · exact hc hh

theorem connectFrom_terminates (outs : List (Option Str)) :
    ∀ (t : Int) (d dur : Nat) (le : Option Str), 0 < t →
      (t : Int) ≤ dur + outs.length →
      connectFrom t d dur le outs ≠ none := by
  induction outs with
  | nil =>
    intro t d dur le ht hlen
    have : ¬(t = 0 ∨ (dur : Int) < t) := by
      simp at hlen
      intro hh
      rcases hh with hh | hh <;> omega
    simp [connectFrom, this]
  | cons o rest ih =>
    intro t d dur le ht hlen
    by_cases hcond : t = 0 ∨ (dur : Int) < t
    · simp only [connectFrom, if_pos hcond]
      match o with
      | none => simp
      | some e =>
        exact ih t (stepDelay d) (dur + 1 + d) (some e) ht
          (by simp at hlen ⊢; omega)
    · simp [connectFrom, hcond]

theorem connectFrom_zero_replicate (e : Str) (n : Nat) :
    ∀ (d dur : Nat) (le : Option Str),
      connectFrom 0 d dur le (List.replicate n (some e)) = none := by
  induction n with
  | zero => intro d dur le; simp [connectFrom]
  | succ n ih =>
    intro d dur le
    simp only [List.replicate_succ]
    simp only [connectFrom, if_pos (Or.inl rfl)]
    exact ih (stepDelay d) (dur + 1 + d) (some e)

/-- C5: the retry loop of `Connect` over an arbitrary sequence of handshake
outcomes: the delay of the (k+1)-st failed attempt starts at 1 second and
grows by one second per attempt, capped at 120; a successful handshake
stops the loop at once with a nil error; for a positive timeout the loop
terminates (it consumes at most `timeout` outcomes) and, when every
handshake fails, returns the last handshake error; a timeout of 0 retries
indefinitely.  The final conjunct exercises the loop on three distinct
errors: it returns the error of the last attempt actually made. -/
theorem C5_connect_retry :
    (∀ k, connectDelay k = min (k + 1) 120)
    ∧ (∀ (t : Int) (e : Str) (k : Nat) (outs : List (Option Str)),
        (t = 0 ∨ (connectDur k : Int) < t) →
        MqttConnect t (List.replicate k (some e) ++ none :: outs) = some none)
    ∧ (∀ (t : Int) (outs : List (Option Str)), 0 < t → (t : Int) ≤ outs.length →
        MqttConnect t outs ≠ none)
    ∧ (∀ (t : Int) (e : Str) (outs : List (Option Str)), 0 < t →
        (t : Int) ≤ outs.length → (∀ x ∈ outs, x = some e) →
        MqttConnect t outs = some (some e))
    ∧ (∀ (n : Nat) (e : Str), MqttConnect 0 (List.replicate n (some e)) = none)
    ∧ MqttConnect 3 [some (str "e0"), some (str "e1"), some (str "e2")]
        = some (some (str "e1")) := by
  refine ⟨connectDelay_min, ?_, ?_, ?_, ?_, by decide⟩
  · intro t e k outs h
    rw [connectFrom_replicate t e k (none :: outs) h]
    simp [connectFrom, h]
  · intro t outs ht hlen
    exact connectFrom_terminates outs t 1 0 none ht (by simpa using hlen)
  · intro t e outs ht hlen hall
    exact connectFrom_allfail e outs t 1 0 none ht (by exact_mod_cast ht)
      hall (by simpa using hlen)
  · intro n e
    exact connectFrom_zero_replicate e n 1 0 none

/-- Witness for C5: with a timeout of 2 seconds and two failing handshakes
the loop returns the (last) handshake error. -/
theorem C5_witness :
    MqttConnect 2 [some (str "x"), some (str "x")] = some (some (str "x")) :=
  C5_connect_retry.2.2.2.1 2 (str "x") [some (str "x"), some (str "x")]
    (by decide) (by decide) (by decide)

/-- C6: `Publish` with no paho client object, or with a disconnected one,
returns the "no connection with server" error and leaves the entire client
state (subscription registry included) unchanged, handing nothing to the
broker; when connected, the payload is handed to the broker exactly once
at the client's pubQos — which `NewMqttClient` fixes at QoS 1
(at-least-once) — and the broker-reported outcome of that single call is
returned without retrying. -/
theorem C6_publish_not_connected :
    (∀ (st : ClientState) (topic m : Str) (be : Option Str),
        st.pahoClient = none →
        Publish st topic m be = (st, some errNotConnected))
    ∧ (∀ (st : ClientState) (p : PahoState) (topic m : Str) (be : Option Str),
        st.pahoClient = some p → p.connected = false →
        Publish st topic m be = (st, some errNotConnected))
    ∧ (∀ (st : ClientState) (p : PahoState) (topic m : Str) (be : Option Str),
        st.pahoClient = some p → p.connected = true →
        Publish st topic m be =
          ({ st with
             pahoClient := some ({ p with published := p.published ++ [(topic, st.pubQos, m)] }) },
            be))
    ∧ (∀ (hp ca : Str) (ts : Int), (NewMqttClient hp ca ts).pubQos = 1) := by
  refine ⟨?_, ?_, ?_, ?_⟩
  · intro st topic m be h
    simp [Publish, h]
  · intro st p topic m be h hc
    simp [Publish, h, hc]
  · intro st p topic m be h hc
    simp [Publish, h, hc]
  · intro hp ca ts
    rfl

/-- Witness for C6: a freshly constructed client has no connection, so
`Publish` fails with the "no connection with server" error and leaves the
state unchanged. -/
theorem C6_witness :
    Publish (NewMqttClient (str "h") (str "c") 3) (str "t") (str "m") none =
      (NewMqttClient (str "h") (str "c") 3, some errNotConnected) :=
  C6_publish_not_connected.1 (NewMqttClient (str "h") (str "c") 3)
    (str "t") (str "m") none rfl

/-- C9: calling `Unsubscribe` while no paho client object exists is a
complete no-op: the registry entry (pattern and handler) survives, and on
the next successful `Connect` the resubscribe step re-subscribes the
pattern at the broker, after which an inbound message on the pattern still
invokes the supposedly unsubscribed handler. -/
theorem C9_unsubscribe_no_client (st : ClientState) (p : Str) (h : Nat)
    (hpc : st.pahoClient = none) (hreg : goGet st.subscriptions p = some h) :
    Unsubscribe st p = st
    ∧ goGet (Unsubscribe st p).subscriptions p = some h
    ∧ (st.subscriptions = [(p, some h)] →
        routeGet (pahoRoutesOf (connectSuccess (Unsubscribe st p))) p = some (some h)
        ∧ dispatch (connectSuccess (Unsubscribe st p)) p = [some h]) := by
  have hid : Unsubscribe st p = st := by
    simp [Unsubscribe, hreg, hpc]
  refine ⟨hid, by rw [hid]; exact hreg, ?_⟩
  intro hsub
  rw [hid]
  have hroutes : pahoRoutesOf (connectSuccess st) = [(p, some h)] := by
    simp [connectSuccess, resubscribeModel, hsub, pahoRoutesOf,
      routeRemove, routeInsert, List.filter]
  constructor
  · rw [hroutes]
    simp [routeGet, List.find?]
  · have hps : (connectSuccess st).pahoClient =
        some { connected := true, routes := [(p, some h)], published := [] } := by
      simp [connectSuccess, resubscribeModel, hsub, routeRemove, routeInsert, List.filter]
    simp [dispatch, hps, List.filter, mqttMatch_self]

/-- Witness for C9: a client that subscribed to "tp" before ever connecting
keeps the subscription through `Unsubscribe`. -/
theorem C9_witness :
    Unsubscribe (Subscribe (NewMqttClient (str "h") (str "c") 3) (str "tp") 7) (str "tp")
      = Subscribe (NewMqttClient (str "h") (str "c") 3) (str "tp") 7 :=
  (C9_unsubscribe_no_client
    (Subscribe (NewMqttClient (str "h") (str "c") 3) (str "tp") 7)
    (str "tp") 7 (by decide) (by decide)).1

/-- C10: `NewMqttClient` replaces a requested timeout of zero or less by the
default of 3 seconds and keeps positive ones, so every constructed client
has a strictly positive timeout, and the `Connect` retry loop of such a
client always terminates (it consumes at most `timeout` handshake
outcomes); the retry-indefinitely behaviour of timeout 0 is unreachable
through the constructor. -/
theorem C10_constructor_timeout :
    (∀ (hp ca : Str) (ts : Int), 0 < (NewMqttClient hp ca ts).timeout)
    ∧ (∀ (hp ca : Str) (ts : Int), ts ≤ 0 → (NewMqttClient hp ca ts).timeout = 3)
    ∧ (∀ (hp ca : Str) (ts : Int), 0 < ts → (NewMqttClient hp ca ts).timeout = ts)
    ∧ (∀ (hp ca : Str) (ts : Int) (outs : List (Option Str)),
        (NewMqttClient hp ca ts).timeout ≤ (outs.length : Int) →
        MqttConnect (NewMqttClient hp ca ts).timeout outs ≠ none) := by
  have hpos : ∀ (hp ca : Str) (ts : Int), 0 < (NewMqttClient hp ca ts).timeout := by
    intro hp ca ts
    simp only [NewMqttClient]
    split <;> omega
  refine ⟨hpos, ?_, ?_, ?_⟩
  · intro hp ca ts h
    simp only [NewMqttClient]
    split <;> omega
  · intro hp ca ts h
    simp only [NewMqttClient]
    split <;> omega
  · intro hp ca ts outs hlen
    exact connectFrom_terminates outs _ 1 0 none (hpos hp ca ts) (by simpa using hlen)

/-- Witness for C10: requesting a timeout of 0 yields the default of 3
seconds. -/
theorem C10_witness : (NewMqttClient (str "h") (str "c") 0).timeout = 3 :=
  C10_constructor_timeout.2.1 (str "h") (str "c") 0 (by decide)

/-- Counterexample to C1: on a connected client, subscribing handler 1 and
then handler 2 to the pattern "test" leaves only handler 2 in the registry
(the entry is replaced, not extended), and one inbound message on "test"
is dispatched to handler 2 once and to handler 1 never. -/
theorem C1_counterexample :
    goGet (Subscribe (Subscribe (connectSuccess (NewMqttClient (str "host") (str "ca") 3))
        (str "test") 1) (str "test") 2).subscriptions (str "test") = some 2
    ∧ some 1 ∉ dispatch (Subscribe (Subscribe (connectSuccess (NewMqttClient (str "host") (str "ca") 3))
        (str "test") 1) (str "test") 2) (str "test")
    ∧ dispatch (Subscribe (Subscribe (connectSuccess (NewMqttClient (str "host") (str "ca") 3))
        (str "test") 1) (str "test") 2) (str "test") = [some 2] := by
  decide

/-- C1 as amended: a second `Subscribe` to the same pattern replaces the
first handler rather than adding to it — after
`Subscribe(p, h1); Subscribe(p, h2)` the registry maps `p` to `h2` alone,
the broker-side route for `p` targets `h2` alone, and one inbound message
matching the pattern is dispatched to `h2` exactly once while `h1`
receives nothing. -/
theorem C1_subscribe_replaces (st : ClientState) (p : Str) (h1 h2 : Nat) :
    goGet (Subscribe (Subscribe st p h1) p h2).subscriptions p = some h2
    ∧ (∀ pc, st.pahoClient = some pc →
        routeGet (pahoRoutesOf (Subscribe (Subscribe st p h1) p h2)) p = some (some h2))
    ∧ dispatch (Subscribe (Subscribe (connectSuccess (NewMqttClient (str "host") (str "ca") 3))
        (str "test") 1) (str "test") 2) (str "test") = [some 2] := by
  refine ⟨?_, ?_, by decide⟩
  · simp only [Subscribe]
    exact goGet_mapInsert _ p (some h2)
  · intro pc hpc
    simp only [Subscribe, hpc, pahoRoutesOf]
    exact routeGet_routeInsert _ p (some h2)

/-- Witness for C1 (amended): the double subscription on a concrete
connected client maps "test" to handler 2 and routes it to handler 2. -/
theorem C1_witness :
    routeGet (pahoRoutesOf (Subscribe (Subscribe (connectSuccess (NewMqttClient (str "host")
        (str "ca") 3)) (str "test") 1) (str "test") 2)) (str "test") = some (some 2) :=
  (C1_subscribe_replaces (connectSuccess (NewMqttClient (str "host") (str "ca") 3))
      (str "test") 1 2).2.1
    { connected := true, routes := [], published := [] } rfl

/-- Counterexample to C2: on a connected client that subscribed handler 7 to
"tp", `Unsubscribe "tp"` leaves the key "tp" in the registry mapped to a
nil entry (it is not deleted), and the resubscribe step of the next
successful connect still enumerates it, re-subscribing "tp" at the broker
with the nil entry — which an inbound message then dereferences. -/
theorem C2_counterexample :
    mapKeyPresent (Unsubscribe (Subscribe (connectSuccess (NewMqttClient (str "h") (str "c") 3))
        (str "tp") 7) (str "tp")).subscriptions (str "tp") = true
    ∧ goGet (Unsubscribe (Subscribe (connectSuccess (NewMqttClient (str "h") (str "c") 3))
        (str "tp") 7) (str "tp")).subscriptions (str "tp") = none
    ∧ routeGet (pahoRoutesOf (connectSuccess (Unsubscribe (Subscribe (connectSuccess
        (NewMqttClient (str "h") (str "c") 3)) (str "tp") 7) (str "tp"))))
        (str "tp") = some none := by
  decide

/-- C2 as amended: after `Unsubscribe(p)` on a client with an active paho
object and `p` registered, the registry keeps `p` as a key mapped to a nil
entry (not deleted), the broker route for `p` is removed — so during the
current connection no previously registered handler for `p` receives
further messages (with `p` the only route, nothing is dispatched at all) —
but the resubscribe step of a later reconnect still enumerates the nil
entry and re-subscribes `p` at the broker with it, so an inbound message
then dereferences a nil subscription instead of reaching any handler. -/
theorem C2_unsubscribe_nil_entry (st : ClientState) (pc : PahoState) (p : Str) (h : Nat)
    (hpc : st.pahoClient = some pc) (hreg : goGet st.subscriptions p = some h) :
    mapKeyPresent (Unsubscribe st p).subscriptions p = true
    ∧ goGet (Unsubscribe st p).subscriptions p = none
    ∧ routeGet (pahoRoutesOf (Unsubscribe st p)) p = none
    ∧ (pc.routes = [(p, some h)] → ∀ m, dispatch (Unsubscribe st p) m = [])
    ∧ (st.subscriptions = [(p, some h)] →
        routeGet (pahoRoutesOf (connectSuccess (Unsubscribe st p))) p = some none
        ∧ dispatch (connectSuccess (Unsubscribe st p)) p = [none]) := by
  have hunsub : Unsubscribe st p =
      { st with
        pahoClient := some ({ pc with routes := routeRemove pc.routes p }),
        subscriptions := mapInsert st.subscriptions p none } := by
    simp [Unsubscribe, hreg, hpc]
  refine ⟨?_, ?_, ?_, ?_, ?_⟩
  · rw [hunsub]
    exact mapKeyPresent_mapInsert st.subscriptions p none
  · rw [hunsub]
    exact goGet_mapInsert st.subscriptions p none
  · rw [hunsub]
    simp only [pahoRoutesOf]
    exact routeGet_routeRemove pc.routes p
  · intro hr m
    rw [hunsub]
    simp [dispatch, hr, routeRemove, List.filter]
  · intro hsub
    have hsubs : (Unsubscribe st p).subscriptions = [(p, none)] := by
      rw [hunsub]
      simp [hsub, mapInsert, mapKeyPresent]
    have hcs : (connectSuccess (Unsubscribe st p)).pahoClient =
        some { connected := true, routes := [(p, none)], published := [] } := by
      simp [connectSuccess, resubscribeModel, hsubs, routeRemove, routeInsert, List.filter]
    constructor
    · simp [pahoRoutesOf, hcs, routeGet, List.find?]
    · simp [dispatch, hcs, List.filter, mqttMatch_self]

/-- Counterexample to C4: a pattern subscribed on a connected client is
present in the registry before `Close` and the registry is empty after
`Close` — the logical subscriptions are cleared, not preserved. -/
theorem C4_counterexample :
    mapKeyPresent (Subscribe (connectSuccess (NewMqttClient (str "h") (str "c") 3))
        (str "test") 5).subscriptions (str "test") = true
    ∧ (Close (Subscribe (connectSuccess (NewMqttClient (str "h") (str "c") 3))
        (str "test") 5)).subscriptions = [] := by
  decide

/-- C4 as amended: whenever a paho client object exists, `Close` clears the
logical subscription registry along with the connection (a subsequent
`Connect` has nothing to replay); only when no client object exists does
`Close` leave the registry (and everything but `isRunning`) unchanged. -/
theorem C4_close_clears_registry (st : ClientState) :
    (st.pahoClient ≠ none →
      (Close st).subscriptions = [] ∧ (Close st).pahoClient = none
        ∧ (Close st).isRunning = false)
    ∧ (st.pahoClient = none → Close st = { st with isRunning := false }) := by
  cases hpc : st.pahoClient with
  | none => simp [Close, hpc]
  | some p => simp [Close, hpc]

/-- Witness for C4 (amended): closing a never-connected client only resets
`isRunning`. -/
theorem C4_witness :
    Close (NewMqttClient (str "h") (str "c") 3) =
      { NewMqttClient (str "h") (str "c") 3 with isRunning := false } :=
  (C4_close_clears_registry (NewMqttClient (str "h") (str "c") 3)).2 rfl

/-- Witness for C2 (amended): on a concrete connected client with handler 7
subscribed to "tq", the key survives `Unsubscribe` mapped to nil. -/
theorem C2_witness :
    goGet (Unsubscribe (Subscribe (connectSuccess (NewMqttClient (str "w") (str "c") 3))
        (str "tq") 7) (str "tq")).subscriptions (str "tq") = none :=
  (C2_unsubscribe_nil_entry
    (Subscribe (connectSuccess (NewMqttClient (str "w") (str "c") 3)) (str "tq") 7)
    { connected := true, routes := [(str "tq", some 7)], published := [] }
    (str "tq") 7 (by decide) (by decide)).2.1

/-- Counterexample to C3: the events adapter invokes the handler with the
subscription-time entity ID — here the wildcard literal "+" — and not with
"thing1" taken from the received topic `things/thing1/event`. -/
theorem C3_counterexample :
    eventsAdapter (str "+") (str "things/thing1/event")
        (Payload.jsonDoc (Val.vfield (str "eventName") (Val.vstr (str "eventValue")) Val.vemp))
      = some (str "+", Val.vfield (str "eventName") (Val.vstr (str "eventValue")) Val.vemp)
    ∧ ¬ (str "+" = str "thing1") := by
  decide

/-- C3 as amended: only the description (TD) adapter — and the raw catch-all
adapter — resolve the entity ID from the received topic (segment 1);
the events, configuration, property-values and actions adapters invoke the
handler with the subscription-time entity ID, so a wildcard subscription
for those kinds hands the handler the wildcard literal.  Deserialization
failures invoke no handler.  The wildcard scenario of the spec does hold
for a description document. -/
theorem C3_adapter_entity_id :
    (∀ (sid addr seg0 tid : Str) (rest : List Str) (td : Val),
        splitSlash addr = seg0 :: tid :: rest →
        tdAdapter sid addr (Payload.jsonDoc td) = some (tid, td))
    ∧ (∀ (addr seg0 tid mt : Str) (rest : List Str) (pl : Str),
        splitSlash addr = seg0 :: tid :: mt :: rest →
        rawAdapter addr pl = some (tid, mt, pl))
    ∧ (∀ (sid addr : Str) (ev : Val),
        eventsAdapter sid addr (Payload.jsonDoc ev) = some (sid, ev))
    ∧ (∀ (sid addr : Str) (cf : Val),
        configAdapter sid addr (Payload.jsonDoc cf) = some (sid, cf))
    ∧ (∀ (sid addr : Str) (vv : Val),
        valuesAdapter sid addr (Payload.jsonDoc vv) = some (sid, vv))
    ∧ (∀ (sid addr name : Str) (params rest : Val),
        actionsAdapter sid addr (Payload.jsonDoc (Val.vfield name params rest)) =
          (sid, name, params) :: actionInvocations sid rest)
    ∧ (∀ (sid addr : Str) (b : Str),
        eventsAdapter sid addr (Payload.invalid b) = none
        ∧ tdAdapter sid addr (Payload.invalid b) = none)
    ∧ tdAdapter (str "+") (str "things/thing1/td") (Payload.jsonDoc Val.vemp)
        = some (str "thing1", Val.vemp) := by
  refine ⟨?_, ?_, fun _ _ _ => rfl, fun _ _ _ => rfl, fun _ _ _ => rfl,
    fun _ _ _ _ _ => rfl, ?_, by decide⟩
  · intro sid addr seg0 tid rest td hsplit
    simp [tdAdapter, hsplit]
  · intro addr seg0 tid mt rest pl hsplit
    simp [rawAdapter, hsplit]
  · intro sid addr b
    constructor
    · rfl
    · simp only [tdAdapter]
      cases splitSlash addr with
      | nil => rfl
      | cons a l =>
        cases l with
        | nil => rfl
        | cons a2 l2 => rfl

/-- Witness for C3 (amended): the TD adapter on the wildcard subscription
resolves "thing1" from the received topic. -/
theorem C3_witness :
    tdAdapter (str "+") (str "things/thing1/td")
        (Payload.jsonDoc (Val.vstr (str "x"))) = some (str "thing1", Val.vstr (str "x")) :=
  C3_adapter_entity_id.1 (str "+") (str "things/thing1/td") (str "things")
    (str "thing1") [str "td"] (Val.vstr (str "x")) (by decide)

/-- Parsing a three-segment topic whose segments are slash-free recovers the
middle and last segments. -/
theorem parseTopic_three (a b c : Str) (ha : '/' ∉ a) (hb : '/' ∉ b) (hc : '/' ∉ c) :
    parseTopic (a ++ '/' :: (b ++ '/' :: c)) = some (b, c) := by
  unfold parseTopic
  rw [splitSlash_append_slash a _ ha, splitSlash_append_slash b _ hb,
    splitSlash_no_slash c hc]

/-- Counterexample to C7: for the entity ID "a/b" (which contains the
separator), building the TD topic and parsing it back yields ("a", "b"),
not the original ("a/b", "td") — the round-trip fails for IDs containing
a slash. -/
theorem C7_counterexample :
    parseTopic (topicForKind MsgKind.td (str "a/b")) = some (str "a", str "b")
    ∧ ¬ parseTopic (topicForKind MsgKind.td (str "a/b"))
        = some (str "a/b", str "td") := by
  decide

/-- C7 as amended: for every message kind and every entity ID that does not
contain the separator '/', substituting the ID into the kind's topic
template and parsing the result back (segment 1 as entity ID, segment 2
as message kind) recovers exactly the original pair. -/
theorem C7_topic_roundtrip (k : MsgKind) (id : Str) (hid : '/' ∉ id) :
    parseTopic (topicForKind k id) = some (id, kindSegment k) := by
  cases k with
  | td =>
    rw [show topicForKind MsgKind.td id
        = str "things" ++ '/' :: (id ++ '/' :: str "td") from rfl]
    exact parseTopic_three _ _ _ (by decide) hid (by decide)
  | values =>
    rw [show topicForKind MsgKind.values id
        = str "things" ++ '/' :: (id ++ '/' :: str "values") from rfl]
    exact parseTopic_three _ _ _ (by decide) hid (by decide)
  | event =>
    rw [show topicForKind MsgKind.event id
        = str "things" ++ '/' :: (id ++ '/' :: str "event") from rfl]
    exact parseTopic_three _ _ _ (by decide) hid (by decide)
  | action =>
    rw [show topicForKind MsgKind.action id
        = str "things" ++ '/' :: (id ++ '/' :: str "action") from rfl]
    exact parseTopic_three _ _ _ (by decide) hid (by decide)
  | config =>
    rw [show topicForKind MsgKind.config id
        = str "things" ++ '/' :: (id ++ '/' :: str "config") from rfl]
    exact parseTopic_three _ _ _ (by decide) hid (by decide)

/-- Witness for C7 (amended): the event topic of "thing1" parses back to
("thing1", "event"). -/
theorem C7_witness :
    parseTopic (topicForKind MsgKind.event (str "thing1"))
      = some (str "thing1", str "event") :=
  C7_topic_roundtrip MsgKind.event (str "thing1") (by decide)

/-- Counterexample to C8: on a connected client, `PublishEvent` with a
document `json.Marshal` rejects returns no error at all — the
serialization failure is silently discarded (and the nil payload is
published instead). -/
theorem C8_counterexample :
    (PublishEvent (connectSuccess (NewMqttClient (str "h") (str "c") 3))
        (str "t1") Val.bad none).2 = none
    ∧ (goMarshal Val.bad).2 = some errUnsupportedType := by
  decide

/-- C8 as amended: `PublishAction` and `PublishConfigRequest` return the
serialization error without publishing anything; `PublishTD`,
`PublishPropertyValues` and `PublishEvent` discard the serialization error
— they publish whatever bytes `json.Marshal` produced (the empty nil
payload on failure) and return only the publish outcome. -/
theorem C8_marshal_error_propagation :
    (∀ (st : ClientState) (tid : Str) (v : Val) (be : Option Str),
        canMarshal v = false →
        PublishConfigRequest st tid v be = (st, some errUnsupportedType))
    ∧ (∀ (st : ClientState) (tid name : Str) (params : Val) (be : Option Str),
        canMarshal params = false →
        PublishAction st tid name params be = (st, some errUnsupportedType))
    ∧ (∀ (st : ClientState) (tid : Str) (v : Val) (be : Option Str),
        PublishEvent st tid v be
          = Publish st (substId tid topicThingEvent) (goMarshal v).1 be)
    ∧ (∀ (st : ClientState) (tid : Str) (v : Val) (be : Option Str),
        PublishTD st tid v be
          = Publish st (substId tid topicThingTD) (goMarshal v).1 be)
    ∧ (∀ (st : ClientState) (tid : Str) (v : Val) (be : Option Str),
        PublishPropertyValues st tid v be
          = Publish st (substId tid topicThingPropertyValues) (goMarshal v).1 be)
    ∧ (∀ (st : ClientState) (p : PahoState) (tid : Str) (v : Val) (be : Option Str),
        st.pahoClient = some p → p.connected = true → canMarshal v = false →
        PublishEvent st tid v be =
          ({ st with
             pahoClient := some ({ p with
               published := p.published ++ [(substId tid topicThingEvent, st.pubQos, [])] }) },
            be))
    ∧ (∀ v : Val, canMarshal v = false → goMarshal v = ([], some errUnsupportedType)) := by
  refine ⟨?_, ?_, fun _ _ _ _ => rfl, fun _ _ _ _ => rfl, fun _ _ _ _ => rfl, ?_, ?_⟩
  · intro st tid v be h
    simp [PublishConfigRequest, goMarshal, h]
  · intro st tid name params be h
    simp [PublishAction, goMarshal, canMarshal, h]
  · intro st p tid v be hpc hconn h
    simp [PublishEvent, goMarshal, h, Publish, hpc, hconn]
  · intro v h
    simp [goMarshal, h]

/-- Witness for C8 (amended): `PublishAction` with unmarshalable parameters
returns the marshal error and leaves the state unchanged. -/
theorem C8_witness :
    PublishAction (NewMqttClient (str "h") (str "c") 3) (str "t1") (str "n") Val.bad none
      = (NewMqttClient (str "h") (str "c") 3, some errUnsupportedType) :=
  C8_marshal_error_propagation.2.1 (NewMqttClient (str "h") (str "c") 3)
    (str "t1") (str "n") Val.bad none (by decide)

end Wost
